import Mathlib

/-!
Verification of the moomoo trading core: a shallow embedding of the
agent-orchestration and messaging subsystem (`src/core/system.rs`,
`src/core/ai_thoughts.rs`, `src/core/errors.rs`, `src/core/config.rs`,
and the agent worker loops in `src/agents/`), together with theorems
settling the specification's claims about it.

Conventions of the embedding:
* Rust `f64` confidence scalars and `Decimal` money amounts are modelled
  as `ℚ`; the code only compares them against literal thresholds.
* `Uuid`/`DateTime` values are opaque inputs, modelled as `String`/`ℕ`
  arguments supplied by the caller.
* The async loops are modelled either as structural recursion over a
  materialized event list or as a one-step transition function; a `none`
  step means the task is suspended with no enabled transition.
-/

namespace Moomoo

/-- Modelled from the spec: `core/types.rs` is declared in `core/mod.rs` but
is absent from the sources. The spec describes an `AgentMessage` carrying a
type tag, and the sources use exactly these four tags
(`MessageType::EmergencyShutdown`, `PerformanceUpdate`, `RiskAlert`,
`SystemCommand`); the emergency tag is the distinguished fatal one. -/
inductive MessageType where
  | EmergencyShutdown
  | PerformanceUpdate
  | RiskAlert
  | SystemCommand
deriving DecidableEq, Repr

/-- Opaque stand-in for `serde_json::Value` payloads; the core never
inspects payload contents on the paths verified here. -/
abbrev JsonValue := String

/-- Modelled from the spec: `AgentMessage` (in the missing `core/types.rs`)
is an immutable record of sender id, recipient, type tag, opaque payload and
timestamp. The pump only inspects `message_type`. -/
structure AgentMessage where
  sender : String
  recipient : Option String
  message_type : MessageType
  payload : JsonValue
  timestamp : ℕ
deriving DecidableEq, Repr

/-! ### The message pump (`TradingSystem::process_messages`, `src/core/system.rs:314-362`)

The loop: (1) read the shared shutdown flag, break if set; (2) `rx.recv().await`
on the unbounded FIFO bus; `None` (channel closed) breaks the loop; an
`EmergencyShutdown` message sets the flag and breaks; any other message is
passed to `route_message` and the loop repeats. -/

/-- One run of `process_messages` over a fully materialized queue, after which
the channel closes. `shutdown` is the value of the shared `shutdown_signal`
flag when the pump reads it (no other task writes it in this run). Returns
the final value of the shutdown flag together with the list of messages the
pump handed to `route_message` (the emergency message itself is acted on but
never routed). -/
def processMessages (shutdown : Bool) (queue : List AgentMessage) :
    Bool × List AgentMessage :=
  match queue with
  | [] => (shutdown, [])
  | m :: rest =>
    if shutdown then (shutdown, [])
    else
      match m.message_type with
      | MessageType.EmergencyShutdown => (true, [])
      | _ =>
        let r := processMessages shutdown rest
        (r.1, m :: r.2)

/-- Control positions of the pump task: about to read the shutdown flag,
suspended inside `rx.recv().await`, or exited. -/
inductive PumpPhase where
  | check
  | recv
  | done
deriving DecidableEq, Repr

/-- Instantaneous state of the pump task: control position, pending queue
contents, the shared shutdown flag, and whether the sending side of the
channel is still open. -/
structure PumpState where
  phase : PumpPhase
  queue : List AgentMessage
  shutdown : Bool
  chanOpen : Bool
deriving DecidableEq, Repr

/-- One autonomous step of the pump task, translated from
`process_messages`. `none` means the pump has no enabled transition: either
it has exited (`done`), or it is parked inside `rx.recv().await` on an empty
open channel — that await has no timeout and no shutdown poll, so the pump
stays suspended until a message arrives or the channel closes. -/
def pumpStep (s : PumpState) : Option PumpState :=
  match s.phase with
  | PumpPhase.done => none
  | PumpPhase.check =>
    if s.shutdown then some { s with phase := PumpPhase.done }
    else some { s with phase := PumpPhase.recv }
  | PumpPhase.recv =>
    match s.queue with
    | m :: rest =>
      match m.message_type with
      | MessageType.EmergencyShutdown =>
        some { s with phase := PumpPhase.done, queue := rest, shutdown := true }
      | _ => some { s with phase := PumpPhase.check, queue := rest }
    | [] =>
      if s.chanOpen then none
      else some { s with phase := PumpPhase.done }

/-- Iterate `pumpStep` for `n` steps; a state with no enabled transition
stays put (the task remains suspended). -/
def pumpRunN (n : ℕ) (s : PumpState) : PumpState :=
  match n with
  | 0 => s
  | n + 1 =>
    match pumpStep s with
    | none => s
    | some s' => pumpRunN n s'

/-! ### Error taxonomy (`src/core/errors.rs`) -/

/-- `TradingError` from `src/core/errors.rs`; wrapped foreign errors
(`anyhow`, `reqwest`, `serde_json`, `std::io`, `tungstenite`) are modelled
as their display strings. -/
inductive TradingError where
  | Config (msg : String)
  | Api (msg : String)
  | Serialization (msg : String)
  | Io (msg : String)
  | WebSocket (msg : String)
  | RiskManagement (message : String)
  | Execution (message : String)
  | MarketData (message : String)
  | AgentCommunication (message : String)
  | Strategy (message : String)
  | Shutdown
  | CircuitBreaker (reason : String)
  | EmergencyStop (reason : String)
deriving DecidableEq, Repr

/-- `TradingError::is_recoverable` (`src/core/errors.rs:102-108`). -/
def TradingError.is_recoverable : TradingError → Bool
  | TradingError.Shutdown => false
  | TradingError.EmergencyStop _ => false
  | TradingError.CircuitBreaker _ => false
  | _ => true

/-- `TradingError::requires_shutdown` (`src/core/errors.rs:111-117`). -/
def TradingError.requires_shutdown : TradingError → Bool
  | TradingError.Shutdown => true
  | TradingError.EmergencyStop _ => true
  | TradingError.CircuitBreaker _ => true
  | _ => false

/-! ### AI thought stream (`src/core/ai_thoughts.rs`) -/

/-- `ThoughtType` (`src/core/ai_thoughts.rs:17-38`). -/
inductive ThoughtType where
  | Analysis
  | Decision
  | Learning
  | RiskCheck
  | PatternFound
  | StrategyUpdate
  | Execution
  | Rebalancing
  | Sentiment
  | Educational
deriving DecidableEq, Repr

/-- `AIAgent` (`src/core/ai_thoughts.rs:42-48`). -/
inductive AIAgent where
  | MarketIntelligence
  | RiskManager
  | LearningEngine
  | MasterCoordinator
  | ExecutionEngine
deriving DecidableEq, Repr

/-- `ConfidenceLevel` (`src/core/ai_thoughts.rs:52-58`). -/
inductive ConfidenceLevel where
  | VeryLow
  | Low
  | Medium
  | High
  | VeryHigh
deriving DecidableEq, Repr

/-- `impl From<f64> for ConfidenceLevel` (`src/core/ai_thoughts.rs:60-70`):
the guard chain `c < 0.2`, `c < 0.4`, `c < 0.6`, `c < 0.8`, else `VeryHigh`.
The `f64` scalar is modelled as `ℚ`. -/
def ConfidenceLevel.ofConfidence (c : ℚ) : ConfidenceLevel :=
  if c < 0.2 then ConfidenceLevel.VeryLow
  else if c < 0.4 then ConfidenceLevel.Low
  else if c < 0.6 then ConfidenceLevel.Medium
  else if c < 0.8 then ConfidenceLevel.High
  else ConfidenceLevel.VeryHigh

/-- `AIThought` (`src/core/ai_thoughts.rs:74-103`). `supporting_data` is a
`HashMap<String, serde_json::Value>`, modelled as an association list without
duplicate keys (the broadcaster never relies on iteration order). -/
structure AIThought where
  id : String
  timestamp : ℕ
  agent : AIAgent
  thought_type : ThoughtType
  message : String
  confidence : ℚ
  confidence_level : ConfidenceLevel
  reasoning : List String
  supporting_data : List (String × JsonValue)
  symbols : List String
  tags : List String
  impact_level : String
  educational : Bool
  planned_actions : List String
deriving DecidableEq, Repr

/-- `AIThought::new` (`src/core/ai_thoughts.rs:107-129`). The fresh
`Uuid::new_v4()` and `Utc::now()` values are supplied as explicit `id` and
`timestamp` arguments. -/
def AIThought.new (id : String) (timestamp : ℕ) (agent : AIAgent)
    (thought_type : ThoughtType) (message : String) (confidence : ℚ) :
    AIThought :=
  { id := id
    timestamp := timestamp
    agent := agent
    thought_type := thought_type
    message := message
    confidence := confidence
    confidence_level := ConfidenceLevel.ofConfidence confidence
    reasoning := []
    supporting_data := []
    symbols := []
    tags := []
    impact_level := "Medium"
    educational := false
    planned_actions := [] }

/-- `HashMap::insert` on the association-list model of `supporting_data`:
replace the value at an existing key, otherwise add the entry. -/
def insertData (m : List (String × JsonValue)) (k : String) (v : JsonValue) :
    List (String × JsonValue) :=
  if m.any (fun p => p.1 = k) then
    m.map (fun p => if p.1 = k then (k, v) else p)
  else m ++ [(k, v)]

/-- `HashMap::get` on the association-list model. -/
def lookupData (m : List (String × JsonValue)) (k : String) : Option JsonValue :=
  match m with
  | [] => none
  | p :: rest => if p.1 = k then some p.2 else lookupData rest k

/-- `AIThought::with_reasoning` (`src/core/ai_thoughts.rs:132-135`). -/
def AIThought.with_reasoning (t : AIThought) (reasoning : List String) : AIThought :=
  { t with reasoning := reasoning }

/-- `AIThought::with_data` (`src/core/ai_thoughts.rs:138-141`). -/
def AIThought.with_data (t : AIThought) (key : String) (value : JsonValue) : AIThought :=
  { t with supporting_data := insertData t.supporting_data key value }

/-- `AIThought::with_symbols` (`src/core/ai_thoughts.rs:144-147`). -/
def AIThought.with_symbols (t : AIThought) (symbols : List String) : AIThought :=
  { t with symbols := symbols }

/-- `AIThought::with_tags` (`src/core/ai_thoughts.rs:150-153`). -/
def AIThought.with_tags (t : AIThought) (tags : List String) : AIThought :=
  { t with tags := tags }

/-- `AIThought::with_impact` (`src/core/ai_thoughts.rs:156-159`). -/
def AIThought.with_impact (t : AIThought) (impact : String) : AIThought :=
  { t with impact_level := impact }

/-- `AIThought::educational` (`src/core/ai_thoughts.rs:162-165`); named
`markEducational` here because the struct field of the same name already
provides the projection. -/
def AIThought.markEducational (t : AIThought) : AIThought :=
  { t with educational := true }

/-- `AIThought::with_actions` (`src/core/ai_thoughts.rs:168-171`). -/
def AIThought.with_actions (t : AIThought) (actions : List String) : AIThought :=
  { t with planned_actions := actions }

/-! ### Thought broadcaster history (`AIThoughtBroadcaster`)

The broadcaster's mutable state is the `Vec<AIThought>` behind the `RwLock`;
positions in the list are publication order (each `broadcast_thought` pushes
at the end). `max_history` is the capacity fixed at construction. -/

/-- History mutation performed by `AIThoughtBroadcaster::broadcast_thought`
(`src/core/ai_thoughts.rs:222-240`): push the thought, then if the length
exceeds `max_history` remove the element at index 0. -/
def broadcast_thought (max_history : ℕ) (history : List AIThought)
    (thought : AIThought) : List AIThought :=
  let h := history ++ [thought]
  if h.length > max_history then h.tail else h

/-- The history after publishing the thoughts `ts` in order, starting from
the empty history of a fresh broadcaster (`AIThoughtBroadcaster::new`). -/
def broadcastAll (max_history : ℕ) (ts : List AIThought) : List AIThought :=
  ts.foldl (broadcast_thought max_history) []

/-- `AIThoughtBroadcaster::get_recent_thoughts`
(`src/core/ai_thoughts.rs:248-256`): return `history[start..]` where
`start = len - limit` when `len > limit`, else `0`. -/
def get_recent_thoughts (history : List AIThought) (limit : ℕ) : List AIThought :=
  let start := if history.length > limit then history.length - limit else 0
  history.drop start

/-- `AIThoughtBroadcaster::get_thoughts_by_agent`
(`src/core/ai_thoughts.rs:259-268`): filter by agent, reverse, take `limit`. -/
def get_thoughts_by_agent (history : List AIThought) (agent : AIAgent)
    (limit : ℕ) : List AIThought :=
  ((history.filter (fun t => t.agent = agent)).reverse).take limit

/-- `AIThoughtBroadcaster::get_educational_thoughts`
(`src/core/ai_thoughts.rs:271-280`): filter by the educational flag, reverse,
take `limit`. -/
def get_educational_thoughts (history : List AIThought) (limit : ℕ) : List AIThought :=
  ((history.filter (fun t => t.educational)).reverse).take limit

/-! ### Configuration and its validation (`src/core/config.rs`)

Only the fields consulted by `SystemConfig::validate` and by
`TradingSystem::new` are carried; `Decimal` and `f64` amounts are `ℚ`. -/

/-- `TradingConfig` (`src/core/config.rs:26-34`), restricted to the fields
`validate`/`new` read. -/
structure TradingConfig where
  initial_capital : ℚ
  target_daily_return : ℚ
deriving DecidableEq, Repr

/-- `RiskConfig` (`src/core/config.rs:47-55`), restricted to the fields
`validate` reads. -/
structure RiskConfig where
  max_daily_loss : ℚ
  var_confidence_level : ℚ
deriving DecidableEq, Repr

/-- `MoomooConfig` (`src/core/config.rs:128-135`), restricted to the fields
`validate` reads. -/
structure MoomooConfig where
  base_url : String
  api_key : String
  paper_trading : Bool
deriving DecidableEq, Repr

/-- `ApiConfig` (`src/core/config.rs:120-124`), restricted to the `moomoo`
section. -/
structure ApiConfig where
  moomoo : MoomooConfig
deriving DecidableEq, Repr

/-- `SystemConfig` (`src/core/config.rs:15-22`), restricted to the sections
`validate` reads. -/
structure SystemConfig where
  trading : TradingConfig
  risk : RiskConfig
  api : ApiConfig
deriving DecidableEq, Repr

/-- `str::contains` on the character lists of a haystack and a needle. -/
def charsContain (pat : List Char) : List Char → Bool
  | [] => pat.isEmpty
  | c :: rest => pat.isPrefixOf (c :: rest) || charsContain pat rest

/-- Rust `String::contains(pattern)`. -/
def strContains (s pat : String) : Bool :=
  charsContain pat.toList s.toList

/-- `SystemConfig::validate` (`src/core/config.rs:266-315`): the guard chain
over capital, target return, daily loss, VaR confidence, and the Moomoo API
key rules (local OpenD URLs skip the key requirement; `demo_` keys require
paper trading; `live_connection_` keys and all remaining keys pass). The
`anyhow::bail!` messages are the error strings. -/
def SystemConfig.validate (c : SystemConfig) : Except String Unit :=
  if c.trading.initial_capital ≤ 0 then
    Except.error "Initial capital must be positive"
  else if c.trading.target_daily_return ≤ 0 ∨ c.trading.target_daily_return > 1 then
    Except.error "Target daily return must be between 0 and 1"
  else if c.risk.max_daily_loss ≥ c.trading.initial_capital then
    Except.error "Max daily loss cannot exceed initial capital"
  else if c.risk.var_confidence_level ≤ 0 ∨ c.risk.var_confidence_level ≥ 1 then
    Except.error "VaR confidence level must be between 0 and 1"
  else if strContains c.api.moomoo.base_url "localhost"
       || strContains c.api.moomoo.base_url "127.0.0.1" then
    Except.ok ()
  else if c.api.moomoo.api_key = "" then
    Except.error "Moomoo API key is required for non-local connections"
  else if "demo_".isPrefixOf c.api.moomoo.api_key then
    (if ¬ c.api.moomoo.paper_trading then
      Except.error "Demo API keys can only be used with paper trading enabled"
    else Except.ok ())
  else if "live_connection_".isPrefixOf c.api.moomoo.api_key then
    Except.ok ()
  else
    Except.ok ()

/-- The part of the `TradingSystem` state (`src/core/system.rs:25-32`) that
`TradingSystem::new` determines and the verified claims consult: the stored
configuration and the freshly created global shutdown flag. -/
structure TradingSystem where
  config : SystemConfig
  shutdown_signal : Bool
deriving DecidableEq, Repr

/-- `TradingSystem::new` (`src/core/system.rs:51-125`): validates the
configuration first — `config.validate().map_err(TradingError::Config)?` —
and only on success builds the system (message bus, default context, empty
registry, shutdown flag initialized to `false`). -/
def TradingSystem.new (config : SystemConfig) : Except TradingError TradingSystem :=
  match config.validate with
  | Except.error e => Except.error (TradingError.Config e)
  | Except.ok _ => Except.ok { config := config, shutdown_signal := false }

/-! ### Agent start and shutdown order (`TradingSystem::start` / `shutdown`) -/

/-- The five agent roles of the registry (`src/core/system.rs:35-41`). -/
inductive AgentKind where
  | coordinator
  | intelligence
  | risk_management
  | execution
  | learning
deriving DecidableEq, Repr

/-- The `enabled` flags of the five per-agent config sections
(`src/core/config.rs:59-116`) that `TradingSystem::start` consults. -/
structure AgentEnabledFlags where
  master_coordinator : Bool
  market_intelligence : Bool
  risk_management : Bool
  execution_engine : Bool
  learning_engine : Bool
deriving DecidableEq, Repr

/-- `AgentRegistry` (`src/core/system.rs:35-41`): one optional slot per
role; a slot is `some ()` once `start` has constructed that agent. -/
structure AgentRegistry where
  coordinator : Option Unit
  intelligence : Option Unit
  risk_management : Option Unit
  execution : Option Unit
  learning : Option Unit
deriving DecidableEq, Repr

/-- The order in which `TradingSystem::start` (`src/core/system.rs:128-190`)
constructs and registers the enabled agents: coordinator, intelligence,
risk, execution, learning. -/
def startSequence (f : AgentEnabledFlags) : List AgentKind :=
  (if f.master_coordinator then [AgentKind.coordinator] else [])
  ++ (if f.market_intelligence then [AgentKind.intelligence] else [])
  ++ (if f.risk_management then [AgentKind.risk_management] else [])
  ++ (if f.execution_engine then [AgentKind.execution] else [])
  ++ (if f.learning_engine then [AgentKind.learning] else [])

/-- The registry after `TradingSystem::start`: each slot is filled exactly
when its `enabled` flag is set. -/
def startRegistry (f : AgentEnabledFlags) : AgentRegistry :=
  { coordinator := if f.master_coordinator then some () else none
    intelligence := if f.market_intelligence then some () else none
    risk_management := if f.risk_management then some () else none
    execution := if f.execution_engine then some () else none
    learning := if f.learning_engine then some () else none }

/-- The order in which `TradingSystem::shutdown` (`src/core/system.rs:274-306`)
requests and awaits each present agent's shutdown: learning, execution,
risk, intelligence, coordinator. -/
def shutdownSequence (r : AgentRegistry) : List AgentKind :=
  (if r.learning.isSome then [AgentKind.learning] else [])
  ++ (if r.execution.isSome then [AgentKind.execution] else [])
  ++ (if r.risk_management.isSome then [AgentKind.risk_management] else [])
  ++ (if r.intelligence.isSome then [AgentKind.intelligence] else [])
  ++ (if r.coordinator.isSome then [AgentKind.coordinator] else [])

/-! ### Agent worker loops (`src/agents/coordinator.rs:189-213`,
`src/agents/learning.rs`, and the same shape in the other agents)

Each `run` is a `loop` around a `tokio::select!` racing (a) the domain
timer (`planning_interval.tick()` / `evolution_interval.tick()` …), whose
arm runs the per-tick unit of work and, on `Err(e)`, logs the error and
falls through to the next iteration, against (b) a short sleep, whose arm
breaks the loop when `base.should_shutdown()` reads the flag as set.
The nondeterministic scheduler choice and the domain result are inputs. -/

/-- One `tokio::select!` resolution observed by a worker loop iteration:
either the domain timer fired with the tick's result, or the shutdown-poll
sleep fired with the flag value read by `should_shutdown()`. -/
inductive WorkerEvent where
  | tick (result : Except TradingError Unit)
  | poll (shutdownFlag : Bool)
deriving Repr

/-- Whether `run` has returned. `finished` corresponds to `run` returning
`Ok(())` after `break`; `running` means the loop is still iterating after
the given events. -/
inductive WorkerOutcome where
  | finished
  | running
deriving DecidableEq, Repr

/-- `true` exactly for the poll event that observes the shutdown flag set
— the only event on which the worker loop breaks. -/
def stopsWorker : WorkerEvent → Bool
  | WorkerEvent.poll true => true
  | _ => false

/-- The agent worker loop (`MasterCoordinatorAgent::run`,
`src/agents/coordinator.rs:196-209`; identically shaped in
`LearningEngineAgent::run` and the other agents) driven by a finite list of
select resolutions: a timer tick's `Err` is logged and the loop continues; a
poll that reads the flag set breaks, after which `run` returns `Ok(())`. -/
def workerRun : List WorkerEvent → WorkerOutcome
  | [] => WorkerOutcome.running
  | WorkerEvent.tick _ :: rest => workerRun rest
  | WorkerEvent.poll true :: _ => WorkerOutcome.finished
  | WorkerEvent.poll false :: rest => workerRun rest

/-! ## Theorems settling the claims -/

/-- C9: for every `TradingError` value `e`, `is_recoverable e` is true exactly
when `requires_shutdown e` is false — the two predicates are complementary
over the whole taxonomy — and `Shutdown`, `EmergencyStop` and
`CircuitBreaker` are the only shutdown-requiring (non-recoverable) variants. -/
theorem c9_recoverable_complements_shutdown :
    ∀ e : TradingError,
      e.is_recoverable = !e.requires_shutdown ∧
      (e.requires_shutdown = true ↔
        e = TradingError.Shutdown ∨
        (∃ r, e = TradingError.EmergencyStop r) ∨
        (∃ r, e = TradingError.CircuitBreaker r)) := by
  intro e
  cases e <;>
    simp [TradingError.is_recoverable, TradingError.requires_shutdown]

/-- C8: for every combination of `enabled` flags, `TradingSystem::shutdown`
requests and awaits agent shutdown in exactly the reverse of the order in
which `TradingSystem::start` started them; with all five agents enabled the
start order is coordinator, intelligence, risk, execution, learning and the
shutdown order is learning, execution, risk, intelligence, coordinator. -/
theorem c8_shutdown_reverse_start_order :
    (∀ f : AgentEnabledFlags,
      shutdownSequence (startRegistry f) = (startSequence f).reverse) ∧
    startSequence ⟨true, true, true, true, true⟩ =
      [AgentKind.coordinator, AgentKind.intelligence, AgentKind.risk_management,
       AgentKind.execution, AgentKind.learning] ∧
    shutdownSequence (startRegistry ⟨true, true, true, true, true⟩) =
      [AgentKind.learning, AgentKind.execution, AgentKind.risk_management,
       AgentKind.intelligence, AgentKind.coordinator] := by
  refine ⟨?_, rfl, rfl⟩
  intro f
  obtain ⟨a, b, c, d, e⟩ := f
  cases a <;> cases b <;> cases c <;> cases d <;> cases e <;> rfl

/-- C5: in the agent worker loop, a failing per-tick unit of work (the
domain-timer branch returning `Err`) is absorbed at the tick boundary — the
loop's outcome after a failing tick equals its outcome on the remaining
events — and as long as no shutdown poll observes the flag set, the loop
keeps running no matter how many ticks fail; `run()` therefore never returns
because of a tick failure. -/
theorem c5_tick_failure_isolated :
    ∀ (evts : List WorkerEvent) (err : TradingError),
      workerRun (WorkerEvent.tick (Except.error err) :: evts) = workerRun evts ∧
      ((∀ e ∈ evts, stopsWorker e = false) → workerRun evts = WorkerOutcome.running) := by
  intro evts err
  refine ⟨rfl, ?_⟩
  intro hall
  induction evts with
  | nil => rfl
  | cons e rest ih =>
    have he := hall e (by simp)
    have hrest : ∀ x ∈ rest, stopsWorker x = false := fun x hx => hall x (by simp [hx])
    cases e with
    | tick r => simpa [workerRun] using ih hrest
    | poll b =>
      cases b with
      | false => simpa [workerRun] using ih hrest
      | true => simp [stopsWorker] at he

/-- Witness for C5: two concrete failing ticks leave the worker loop running. -/
theorem c5_tick_failure_isolated_witness :
    workerRun [WorkerEvent.tick (Except.error (TradingError.Execution "order rejected")),
               WorkerEvent.tick (Except.error (TradingError.Strategy "no signal"))] =
      workerRun [WorkerEvent.tick (Except.error (TradingError.Strategy "no signal"))] ∧
    workerRun [WorkerEvent.tick (Except.error (TradingError.Strategy "no signal"))] =
      WorkerOutcome.running := by
  have h := c5_tick_failure_isolated
    [WorkerEvent.tick (Except.error (TradingError.Strategy "no signal"))]
    (TradingError.Execution "order rejected")
  exact ⟨h.1, h.2 (by intro e he; simp at he; simp [he, stopsWorker])⟩

/-- C1: if the pump dequeues a queue consisting of non-emergency messages
`pre`, then an emergency-shutdown message, then arbitrary messages `post`,
it routes exactly the messages of `pre`, sets the global shutdown flag to
`true`, and exits the loop — no message enqueued after the emergency message
is ever processed. -/
theorem c1_emergency_stops_pump :
    ∀ (pre post : List AgentMessage) (em : AgentMessage),
      em.message_type = MessageType.EmergencyShutdown →
      (∀ m ∈ pre, m.message_type ≠ MessageType.EmergencyShutdown) →
      processMessages false (pre ++ em :: post) = (true, pre) := by
  intro pre post em hem hpre
  induction pre with
  | nil => simp [processMessages, hem]
  | cons m rest ih =>
    have hm := hpre m (by simp)
    have hrest : ∀ x ∈ rest, x.message_type ≠ MessageType.EmergencyShutdown :=
      fun x hx => hpre x (by simp [hx])
    have hih := ih hrest
    cases htype : m.message_type with
    | EmergencyShutdown => exact absurd htype hm
    | PerformanceUpdate => simp [processMessages, htype, hih]
    | RiskAlert => simp [processMessages, htype, hih]
    | SystemCommand => simp [processMessages, htype, hih]

/-- Witness for C1: a concrete queue — one `SystemCommand`, the emergency
message, then a `RiskAlert` enqueued after it — on which the pump routes
only the first message and ends with the flag set. -/
theorem c1_emergency_stops_pump_witness :
    processMessages false
      [⟨"coordinator", none, MessageType.SystemCommand, "rebalance", 1⟩,
       ⟨"risk", none, MessageType.EmergencyShutdown, "loss limit", 2⟩,
       ⟨"intelligence", none, MessageType.RiskAlert, "late alert", 3⟩] =
      (true, [⟨"coordinator", none, MessageType.SystemCommand, "rebalance", 1⟩]) := by
  exact c1_emergency_stops_pump
    [⟨"coordinator", none, MessageType.SystemCommand, "rebalance", 1⟩]
    [⟨"intelligence", none, MessageType.RiskAlert, "late alert", 3⟩]
    ⟨"risk", none, MessageType.EmergencyShutdown, "loss limit", 2⟩
    rfl (by intro m hm; simp at hm; simp [hm])

/-- A state with no enabled transition stays put under any number of
iterations of the pump. -/
lemma pumpRunN_of_stuck (n : ℕ) (s : PumpState) (h : pumpStep s = none) :
    pumpRunN n s = s := by
  cases n with
  | zero => rfl
  | succ n => simp [pumpRunN, h]

/-- C2 counterexample: with the global shutdown flag already `true`, the
queue empty and the channel open, the pump suspended in `rx.recv().await`
has no enabled transition — `recv` has no timeout and never re-reads the
flag — so even after a million steps it has not terminated, contradicting
the claimed bounded shutdown latency of one poll interval. -/
theorem c2_counterexample :
    pumpStep ⟨PumpPhase.recv, [], true, true⟩ = none ∧
    pumpRunN 1000000 ⟨PumpPhase.recv, [], true, true⟩ =
      (⟨PumpPhase.recv, [], true, true⟩ : PumpState) ∧
    PumpPhase.recv ≠ PumpPhase.done := by
  refine ⟨rfl, pumpRunN_of_stuck _ _ rfl, by decide⟩

/-- C2 (amended): the pump reads the global shutdown flag exactly once per
loop iteration, before dequeuing — a set flag observed at that check point
exits the loop in one step — but the blocking dequeue itself has no timeout
and performs no flag re-check: on an empty open channel the pump has no
enabled transition regardless of the flag, remains in `recv` for any number
of steps while no message arrives, and leaves an empty channel only when
the channel closes. -/
theorem c2_flag_poll_only_before_dequeue :
    ∀ (q : List AgentMessage) (sd o : Bool) (n : ℕ),
      pumpStep ⟨PumpPhase.check, q, true, o⟩ =
        some ⟨PumpPhase.done, q, true, o⟩ ∧
      pumpStep ⟨PumpPhase.recv, [], sd, true⟩ = none ∧
      pumpRunN n ⟨PumpPhase.recv, [], sd, true⟩ =
        (⟨PumpPhase.recv, [], sd, true⟩ : PumpState) ∧
      pumpStep ⟨PumpPhase.recv, [], sd, false⟩ =
        some ⟨PumpPhase.done, [], sd, false⟩ := by
  intro q sd o n
  exact ⟨rfl, rfl, pumpRunN_of_stuck _ _ rfl, rfl⟩

/-- Two concrete thoughts used by the query-ordering counterexample;
in a history they stand in publication order `t1` then `t2`. -/
def thoughtA : AIThought :=
  AIThought.new "id-1" 1 AIAgent.MarketIntelligence ThoughtType.Analysis "first" 0.5

/-- Second concrete thought, published after `thoughtA`. -/
def thoughtB : AIThought :=
  AIThought.new "id-2" 2 AIAgent.MarketIntelligence ThoughtType.Analysis "second" 0.5

/-- C3 counterexample: on the two-element history `[thoughtA, thoughtB]`
(`thoughtB` most recently published) with `limit = 2`,
`get_recent_thoughts` returns `[thoughtA, thoughtB]` — chronological order,
not the claimed reverse-chronological (most recently published first)
`[thoughtB, thoughtA]`. -/
theorem c3_counterexample :
    get_recent_thoughts [thoughtA, thoughtB] 2 = [thoughtA, thoughtB] ∧
    get_recent_thoughts [thoughtA, thoughtB] 2 ≠ [thoughtB, thoughtA] := by
  refine ⟨rfl, ?_⟩
  intro h
  have h0 : thoughtA = thoughtB := by
    have h1 := congrArg (fun l => l.head?) h
    simpa [get_recent_thoughts] using h1
  have : thoughtA.message = thoughtB.message := congrArg AIThought.message h0
  simp [thoughtA, thoughtB, AIThought.new] at this

/-- C3 (amended): `get_recent_thoughts` returns the `limit` most recently
published records but in chronological order (oldest of the returned window
first, i.e. the reverse of most-recent-first), while
`get_thoughts_by_agent` and `get_educational_thoughts` scan the history and
return matching records in reverse-chronological order; all three truncate
to at most `limit` records. -/
theorem c3_query_order :
    ∀ (h : List AIThought) (a : AIAgent) (limit : ℕ),
      get_recent_thoughts h limit = ((h.reverse.take limit).reverse : List AIThought) ∧
      get_thoughts_by_agent h a limit =
        (h.reverse.filter (fun t => t.agent = a)).take limit ∧
      get_educational_thoughts h limit =
        (h.reverse.filter (fun t => t.educational)).take limit ∧
      (get_recent_thoughts h limit).length ≤ limit ∧
      (get_thoughts_by_agent h a limit).length ≤ limit ∧
      (get_educational_thoughts h limit).length ≤ limit := by
  intro h a limit
  have hrecent : get_recent_thoughts h limit = (h.reverse.take limit).reverse := by
    rw [List.reverse_take]
    simp only [List.length_reverse, List.reverse_reverse]
    unfold get_recent_thoughts
    by_cases hl : h.length > limit
    · simp [hl]
    · have : h.length - limit = 0 := by omega
      simp [hl, this]
  refine ⟨hrecent, ?_, ?_, ?_, ?_, ?_⟩
  · unfold get_thoughts_by_agent
    rw [List.filter_reverse]
  · unfold get_educational_thoughts
    rw [List.filter_reverse]
  · rw [hrecent]
    simp only [List.length_reverse]
    exact List.length_take_le limit h.reverse
  · exact List.length_take_le _ _
  · exact List.length_take_le _ _

/-- C6: the bucketing of a confidence scalar is deterministic with exactly
the thresholds 0.2, 0.4, 0.6, 0.8 — `VeryLow` iff `c < 0.2`, `Low` iff
`0.2 ≤ c < 0.4`, `Medium` iff `0.4 ≤ c < 0.6`, `High` iff `0.6 ≤ c < 0.8`,
`VeryHigh` iff `0.8 ≤ c` — and `AIThought::new` sets `confidence_level` to
the bucket of its `confidence` argument. -/
theorem c6_confidence_thresholds :
    ∀ (c : ℚ) (id : String) (ts : ℕ) (agent : AIAgent)
      (tt : ThoughtType) (msg : String),
      (ConfidenceLevel.ofConfidence c = ConfidenceLevel.VeryLow ↔ c < 0.2) ∧
      (ConfidenceLevel.ofConfidence c = ConfidenceLevel.Low ↔ 0.2 ≤ c ∧ c < 0.4) ∧
      (ConfidenceLevel.ofConfidence c = ConfidenceLevel.Medium ↔ 0.4 ≤ c ∧ c < 0.6) ∧
      (ConfidenceLevel.ofConfidence c = ConfidenceLevel.High ↔ 0.6 ≤ c ∧ c < 0.8) ∧
      (ConfidenceLevel.ofConfidence c = ConfidenceLevel.VeryHigh ↔ 0.8 ≤ c) ∧
      (AIThought.new id ts agent tt msg c).confidence_level =
        ConfidenceLevel.ofConfidence c := by
  intro c id ts agent tt msg
  refine ⟨?_, ?_, ?_, ?_, ?_, rfl⟩ <;>
  · unfold ConfidenceLevel.ofConfidence
    split_ifs <;> simp_all <;> intros <;> linarith

/-- A concrete configuration violating the first validation rule
(`initial_capital` not positive); all other sections hold the crate's
default values. -/
def invalidConfig : SystemConfig :=
  { trading := { initial_capital := 0, target_daily_return := 0.25 }
    risk := { max_daily_loss := 2, var_confidence_level := 0.95 }
    api := { moomoo := { base_url := "https://openapi.moomoo.com",
                         api_key := "demo_key", paper_trading := true } } }

/-- C7 counterexample: `TradingSystem::new` does perform configuration
validation — on a configuration with `initial_capital = 0` it runs
`config.validate()`, which fails, and `new` returns the `Config` error
instead of constructing the system. -/
theorem c7_counterexample :
    invalidConfig.validate = Except.error "Initial capital must be positive" ∧
    TradingSystem.new invalidConfig =
      Except.error (TradingError.Config "Initial capital must be positive") := by
  constructor <;> rfl

/-- C7 (amended): `TradingSystem::new` re-validates the supplied
configuration via `SystemConfig::validate` before constructing the system:
it succeeds exactly when validation succeeds, returns
`TradingError::Config e` exactly when validation fails with `e`, and on
success stores the configuration with the global shutdown flag cleared. -/
theorem c7_new_validates_config :
    ∀ cfg : SystemConfig,
      (TradingSystem.new cfg).isOk = (cfg.validate).isOk ∧
      (∀ e, TradingSystem.new cfg = Except.error (TradingError.Config e) ↔
        cfg.validate = Except.error e) ∧
      (TradingSystem.new cfg = Except.ok { config := cfg, shutdown_signal := false } ↔
        cfg.validate = Except.ok ()) := by
  intro cfg
  cases h : cfg.validate with
  | error e => simp [TradingSystem.new, h, Except.isOk, Except.toBool]
  | ok u => cases u; simp [TradingSystem.new, h, Except.isOk, Except.toBool]

/-- Looking a key up in the association list after replacing the value bound
to a different key `k` leaves the result unchanged. -/
lemma lookupData_map_replace (k : String) (v : JsonValue) (k2 : String)
    (m : List (String × JsonValue)) (hne : k2 ≠ k) :
    lookupData (m.map (fun p => if p.1 = k then (k, v) else p)) k2 =
      lookupData m k2 := by
  induction m with
  | nil => rfl
  | cons p rest ih =>
    simp only [List.map_cons]
    by_cases hp : p.1 = k
    · rw [if_pos hp]
      have h1 : ¬ ((k, v).1 = k2) := fun hh => hne hh.symm
      have h2 : ¬ (p.1 = k2) := fun hh => hne (hp.symm.trans hh).symm
      simp only [lookupData]
      rw [if_neg h1, if_neg h2, ih]
    · rw [if_neg hp]
      simp only [lookupData]
      by_cases hpk2 : p.1 = k2
      · rw [if_pos hpk2, if_pos hpk2]
      · rw [if_neg hpk2, if_neg hpk2, ih]

/-- After replacing the value bound to a key that occurs in the list, looking
that key up yields the new value. -/
lemma lookupData_map_self (k : String) (v : JsonValue)
    (m : List (String × JsonValue))
    (hmem : (m.any fun p => p.1 = k) = true) :
    lookupData (m.map (fun p => if p.1 = k then (k, v) else p)) k = some v := by
  induction m with
  | nil => simp at hmem
  | cons p rest ih =>
    simp only [List.map_cons]
    by_cases hp : p.1 = k
    · rw [if_pos hp]
      simp [lookupData]
    · rw [if_neg hp]
      have hrest : (rest.any fun p => p.1 = k) = true := by
        simp only [List.any_cons, Bool.or_eq_true, decide_eq_true_eq] at hmem
        rcases hmem with hmem | hmem
        · exact absurd hmem hp
        · exact hmem
      simp only [lookupData]
      rw [if_neg hp, ih hrest]

/-- A key that occurs nowhere in the association list looks up to `none`. -/
lemma lookupData_eq_none (m : List (String × JsonValue)) (k : String)
    (h : (m.any fun p => p.1 = k) = false) : lookupData m k = none := by
  induction m with
  | nil => rfl
  | cons p rest ih =>
    simp [List.any_cons] at h
    simp [lookupData, h.1, ih (by simpa using h.2)]

/-- Appending a fresh binding `(k, v)` to an association list in which `k`
is unbound adds exactly that entry to the lookup function. -/
lemma lookupData_append_single (m : List (String × JsonValue))
    (k k2 : String) (v : JsonValue) (hnone : lookupData m k = none) :
    lookupData (m ++ [(k, v)]) k2 =
      if k2 = k then some v else lookupData m k2 := by
  induction m with
  | nil =>
    simp only [List.nil_append, lookupData]
    by_cases hk : k2 = k
    · rw [if_pos hk.symm, if_pos hk]
    · rw [if_neg (fun hh => hk hh.symm), if_neg hk]
  | cons p rest ih =>
    have hsplit : ¬ (p.1 = k) ∧ lookupData rest k = none := by
      simp only [lookupData] at hnone
      by_cases hp : p.1 = k
      · rw [if_pos hp] at hnone
        exact absurd hnone (by simp)
      · rw [if_neg hp] at hnone
        exact ⟨hp, hnone⟩
    simp only [List.cons_append, lookupData, List.append_eq]
    by_cases hpk2 : p.1 = k2
    · have hk : ¬ (k2 = k) := fun hh => hsplit.1 (hpk2.trans hh)
      rw [if_pos hpk2, if_neg hk, if_pos hpk2]
    · rw [if_neg hpk2, if_neg hpk2, ih hsplit.2]

/-- `HashMap::insert` semantics of `insertData`: the inserted key is bound
to the new value and every other key's binding is unchanged. -/
lemma lookupData_insertData (m : List (String × JsonValue))
    (k k2 : String) (v : JsonValue) :
    lookupData (insertData m k v) k2 =
      if k2 = k then some v else lookupData m k2 := by
  unfold insertData
  cases hany : (m.any fun p => p.1 = k) with
  | true =>
    simp only [hany, if_true]
    by_cases hk : k2 = k
    · subst hk
      rw [if_pos rfl]
      exact lookupData_map_self k2 v m hany
    · rw [if_neg hk]
      exact lookupData_map_replace k v k2 m hk
  | false =>
    simp only [hany, Bool.false_eq_true, if_false]
    exact lookupData_append_single m k k2 v (lookupData_eq_none m k hany)

/-- C10: each `AIThought` builder method is exactly a single-field update —
`with_reasoning`, `with_symbols`, `with_tags`, `with_impact`,
`educational` and `with_actions` set only their named field, and `with_data`
changes only `supporting_data`, where it adds or replaces exactly the entry
under the given key, leaving every other key's binding and every other
field (id, timestamp, agent, thought_type, message, confidence,
confidence_level, …) unchanged. -/
theorem c10_builders_single_field :
    ∀ (t : AIThought) (r syms tags acts : List String)
      (imp k : String) (v : JsonValue),
      t.with_reasoning r = { t with reasoning := r } ∧
      t.with_data k v =
        { t with supporting_data := insertData t.supporting_data k v } ∧
      (∀ k2, lookupData (t.with_data k v).supporting_data k2 =
        if k2 = k then some v else lookupData t.supporting_data k2) ∧
      t.with_symbols syms = { t with symbols := syms } ∧
      t.with_tags tags = { t with tags := tags } ∧
      t.with_impact imp = { t with impact_level := imp } ∧
      t.markEducational = { t with educational := true } ∧
      t.with_actions acts = { t with planned_actions := acts } := by
  intro t r syms tags acts imp k v
  exact ⟨rfl, rfl, fun k2 => lookupData_insertData t.supporting_data k k2 v,
         rfl, rfl, rfl, rfl, rfl⟩

/-- Publishing one more thought after a sequence folds through
`broadcast_thought` once. -/
lemma broadcastAll_concat (C : ℕ) (ts : List AIThought) (t : AIThought) :
    broadcastAll C (ts ++ [t]) = broadcast_thought C (broadcastAll C ts) t := by
  simp [broadcastAll, List.foldl_append]

/-- The history of a capacity-`C` broadcaster after publishing `ts` in order
is exactly the suffix of `ts` obtained by dropping all but the last `C`
elements (everything older is evicted, oldest first). -/
lemma broadcastAll_eq_drop (C : ℕ) (ts : List AIThought) :
    broadcastAll C ts = ts.drop (ts.length - C) := by
  induction ts using List.reverseRecOn with
  | nil => simp [broadcastAll]
  | append_singleton ts t ih =>
    rw [broadcastAll_concat, ih]
    unfold broadcast_thought
    by_cases hC : ts.length < C
    · have h0 : ts.length - C = 0 := by omega
      rw [h0, List.drop_zero]
      have hcond : ¬ ((ts ++ [t]).length > C) := by
        simp only [List.length_append, List.length_cons, List.length_nil]
        omega
      rw [if_neg hcond]
      have h1 : (ts ++ [t]).length - C = 0 := by
        simp only [List.length_append, List.length_cons, List.length_nil]
        omega
      rw [h1, List.drop_zero]
    · by_cases hC0 : C = 0
      · subst hC0
        have hd : ts.drop (ts.length - 0) = [] := by
          rw [Nat.sub_zero]
          exact List.drop_length ts
        rw [hd]
        have hcond : ([] ++ [t] : List AIThought).length > 0 := by simp
        rw [if_pos hcond]
        have hr : (ts ++ [t]).drop ((ts ++ [t]).length - 0) = [] := by
          rw [Nat.sub_zero]
          exact List.drop_length _
        rw [hr]
        rfl
      · have hlen : (ts.drop (ts.length - C)).length = C := by
          rw [List.length_drop]
          omega
        have hne : ts.drop (ts.length - C) ≠ [] := by
          intro hnil
          rw [hnil] at hlen
          simp at hlen
          omega
        have hcond : (ts.drop (ts.length - C) ++ [t]).length > C := by
          simp only [List.length_append, hlen, List.length_cons, List.length_nil]
          omega
        rw [if_pos hcond, List.tail_append_of_ne_nil hne, List.tail_drop]
        have harith : ts.length - C + 1 = (ts ++ [t]).length - C := by
          simp only [List.length_append, List.length_cons, List.length_nil]
          omega
        rw [harith]
        rw [List.drop_append_of_le_length
          (by simp only [List.length_append, List.length_cons, List.length_nil]; omega)]

/-- C4: for every capacity `C` and every sequence `ts` of published
thoughts, the history after all `broadcast_thought` calls is exactly
`ts.drop (ts.length - C)` — the `C` most recently published thoughts in
publication order once more than `C` have been published, with the oldest
evicted first — its length is `min ts.length C`, hence never exceeds the
configured capacity, and `get_recent_thoughts` with limit `C` returns the
whole retained history. Since every prefix of a publication sequence is
itself such a sequence, the capacity bound holds after every call. -/
theorem c4_history_capacity :
    ∀ (C : ℕ) (ts : List AIThought),
      broadcastAll C ts = ts.drop (ts.length - C) ∧
      (broadcastAll C ts).length = min ts.length C ∧
      (broadcastAll C ts).length ≤ C ∧
      get_recent_thoughts (broadcastAll C ts) C = broadcastAll C ts := by
  intro C ts
  have hb := broadcastAll_eq_drop C ts
  have hlen : (broadcastAll C ts).length = min ts.length C := by
    rw [hb, List.length_drop]
    omega
  refine ⟨hb, hlen, by rw [hlen]; omega, ?_⟩
  unfold get_recent_thoughts
  have hgt : ¬ ((broadcastAll C ts).length > C) := by
    rw [hlen]
    omega
  rw [if_neg hgt, List.drop_zero]

end Moomoo
